import Mathlib

/-!
Verification development for the duck-hunt PWA repository.

Shallow embedding of the core logic described in the specification:
the collection ledger (`CollectionManager`), the orientation filter
(`MotionSensorManager` and the standalone orientation-smoothing pipeline),
and the spawn selector (`DuckSpawner` / `ARManager`).

JavaScript numbers are modelled as rationals; the JavaScript `NaN` value
(which can arise from `parseInt` on a non-numeric string) is modelled by
`Option ℚ` with `none` standing for `NaN`.  Fallible operations return
`Option`/`Except` values.  Sources of randomness and wall-clock time are
passed in as explicit arguments.
-/

namespace Pwa

/-! ## Shared data model -/

/-- An entry of the duck catalog: `{ emoji, name, points, rarity }`
(`DuckSpawner.duckTypes` in `DuckSpawner.js`, and the local `duckTypes`
array of `ARManager.getDuckByRarity`). -/
structure DuckType where
  emoji : String
  name : String
  points : ℚ
  rarity : ℚ
deriving Repr, DecidableEq

/-- One collected duck as stored in the ledger: a copy of the catalog
fields plus `id`, `timestamp`, `isNew` (built by
`CollectionManager.collectDuck`). -/
structure CollectedItem where
  emoji : String
  name : String
  points : ℚ
  rarity : ℚ
  id : ℕ
  timestamp : ℕ
  isNew : Bool
deriving Repr, DecidableEq

/-- An unlocked achievement record `{ id, name, description, icon }`. -/
structure Achievement where
  id : String
  name : String
  description : String
  icon : String
deriving Repr, DecidableEq

/-! ## JavaScript number helpers

The ledger's `points` field is a JavaScript number that can become `NaN`
(via `parseInt`), so it is modelled as `Option ℚ`, `none` = `NaN`. -/

/-- JavaScript addition on possibly-`NaN` numbers: `NaN` propagates. -/
def jadd : Option ℚ → Option ℚ → Option ℚ
  | some a, some b => some (a + b)
  | _, _ => none

/-- JavaScript `p >= m` comparison: any comparison with `NaN` is false. -/
def jge (p : Option ℚ) (m : ℚ) : Bool :=
  match p with
  | some q => decide (m ≤ q)
  | none => false

/-- JavaScript `p < m` comparison: any comparison with `NaN` is false. -/
def jltB (p : Option ℚ) (m : ℚ) : Bool :=
  match p with
  | some q => decide (q < m)
  | none => false

/-- Truncation toward zero, as JavaScript's remainder operator uses. -/
def ratTrunc (q : ℚ) : ℤ := if 0 ≤ q then ⌊q⌋ else ⌈q⌉

/-- JavaScript `a % b` for finite `b ≠ 0`: `a - b * trunc (a / b)`. -/
def jsRem (a b : ℚ) : ℚ := a - b * (ratTrunc (a / b) : ℚ)

/-- JavaScript `%` lifted to possibly-`NaN` numbers: `NaN % m` and
`q % 0` are `NaN`. -/
def jrem (p : Option ℚ) (m : ℚ) : Option ℚ :=
  match p with
  | some q => if m = 0 then none else some (jsRem q m)
  | none => none

/-! ## Collection ledger (`CollectionManager`, src/unnamed/part_001)

State fields `ducks`, `points`, `achievements`; the callback fields
(`onPointsUpdated` …) only forward values and are omitted. -/

structure CollectionManager where
  ducks : List CollectedItem
  points : Option ℚ
  achievements : List Achievement
deriving Repr, DecidableEq

/-- The constructor state: `ducks = []`, `points = 0`, `achievements = []`. -/
def cmInit : CollectionManager := ⟨[], some 0, []⟩

/-- `CollectionManager.hasAchievement`:
`this.achievements.some(a => a.id === achievementId)`. -/
def hasAchievement (st : CollectionManager) (achievementId : String) : Bool :=
  st.achievements.any (fun a => a.id == achievementId)

/-- The `first_duck` achievement object pushed by `checkAchievements`. -/
def firstDuckAchievement : Achievement :=
  ⟨"first_duck", "First Duck", "Collected your first duck!", "🐥"⟩

/-- The duck-count milestone list of `checkAchievements`. -/
def duckMilestones : List ℕ := [5, 10, 25, 50, 100]

/-- The per-milestone duck-collector achievement object. -/
def duckMilestoneAchievement (m : ℕ) : Achievement :=
  ⟨"ducks_" ++ toString m, "Duck Collector " ++ toString m,
   "Collected " ++ toString m ++ " ducks!",
   if 50 ≤ m then "🏆" else "🎖️"⟩

/-- The points milestone list of `checkAchievements`. -/
def pointMilestones : List ℕ := [100, 500, 1000, 2500, 5000]

/-- The per-milestone point-master achievement object. -/
def pointMilestoneAchievement (m : ℕ) : Achievement :=
  ⟨"points_" ++ toString m, "Point Master " ++ toString m,
   "Earned " ++ toString m ++ " points!", "⭐"⟩

/-- The `golden_duck` achievement object. -/
def goldenDuckAchievement : Achievement :=
  ⟨"golden_duck", "Golden Hunter", "Found your first Golden Duck!", "🌟"⟩

/-- The `royal_duck` achievement object. -/
def royalDuckAchievement : Achievement :=
  ⟨"royal_duck", "Royal Hunter", "Found your first Royal Duck!", "👑"⟩

/-- The candidate achievements of `CollectionManager.checkAchievements`,
in evaluation order, each paired with its eligibility condition
(`ducks.length === 1`; `ducks.length >= milestone`; `points >= milestone`;
`goldenDucks >= 1`; `royalDucks >= 1`).  The JS code pushes a candidate
onto `newAchievements` exactly when its condition holds and
`hasAchievement` is false, which `newAchievements` below reproduces. -/
def candidatePairs (st : CollectionManager) : List (Bool × Achievement) :=
  [(st.ducks.length == 1, firstDuckAchievement)]
    ++ duckMilestones.map
        (fun m => (decide (m ≤ st.ducks.length), duckMilestoneAchievement m))
    ++ pointMilestones.map
        (fun (m : ℕ) => (jge st.points (m : ℚ), pointMilestoneAchievement m))
    ++ [(decide (1 ≤ (st.ducks.filter (fun d => d.name == "Golden Duck")).length),
         goldenDuckAchievement)]
    ++ [(decide (1 ≤ (st.ducks.filter (fun d => d.name == "Royal Duck")).length),
         royalDuckAchievement)]

/-- The `newAchievements` array built by `checkAchievements`: the eligible
candidates whose id is not yet in the unlocked set. -/
def newAchievements (st : CollectionManager) : List Achievement :=
  ((candidatePairs st).filter
      (fun p => p.1 && !hasAchievement st p.2.id)).map (fun p => p.2)

/-- `CollectionManager.checkAchievements`: appends the newly unlocked
achievements to `this.achievements` (the unlock callback only reports). -/
def checkAchievements (st : CollectionManager) : CollectionManager :=
  { st with achievements := st.achievements ++ newAchievements st }

/-- `CollectionManager.collectDuck`: builds the new item from `duckType`
(with a creation-time id `idv` and timestamp `now`), appends it, adds
`duckType.points` to `points`, then runs `checkAchievements`.
Persistence (`saveData`) and the callbacks do not change the state. -/
def collectDuck (st : CollectionManager) (duckType : DuckType)
    (idv now : ℕ) : CollectionManager × CollectedItem :=
  let newDuck : CollectedItem :=
    ⟨duckType.emoji, duckType.name, duckType.points, duckType.rarity,
     idv, now, true⟩
  let st1 : CollectionManager :=
    { st with ducks := st.ducks ++ [newDuck],
              points := jadd st.points (some duckType.points) }
  (checkAchievements st1, newDuck)

/-- `CollectionManager.resetData`: returns to the empty defaults. -/
def resetData (_st : CollectionManager) : CollectionManager := cmInit

/-- A reward tier `{ points, reward }` of `calculateRewards`. -/
structure RewardTier where
  points : ℚ
  reward : String
deriving Repr, DecidableEq

/-- The fixed reward-tier table of `CollectionManager.calculateRewards`. -/
def rewardTiers : List RewardTier :=
  [⟨100, "Free Coffee!"⟩,
   ⟨250, "20% Off Next Purchase"⟩,
   ⟨500, "Free Dessert!"⟩,
   ⟨1000, "Double Points Next Visit"⟩,
   ⟨2500, "VIP Access for a Day"⟩]

/-- `CollectionManager.calculateRewards`: filters the tiers by
`points >= tier.points && points % tier.points < tier.points`. -/
def calculateRewards (st : CollectionManager) : List RewardTier :=
  rewardTiers.filter
    (fun tier => jge st.points tier.points
      && jltB (jrem st.points tier.points) tier.points)

/-- Modelled from the spec's reward-tier lookup sentence: "given current
`points`, … return tiers where `points >= threshold`" — the comparison
definition `calculateRewards` is checked against. -/
def rewardsBySpec (st : CollectionManager) : List RewardTier :=
  rewardTiers.filter (fun tier => jge st.points tier.points)

/-! ## Bulk import (`CollectionManager.importData`) -/

/-- A JavaScript value as it can appear in a field of an import payload:
an array (of `α`), a number (with `NaN` separate — `typeof NaN` is still
`'number'`), a string, a boolean, `null`, or an absent field. -/
inductive JField (α : Type) where
  | jarr (xs : List α)
  | jnum (q : ℚ)
  | jnan
  | jstr (s : String)
  | jbool (b : Bool)
  | jnull
  | jundef
deriving Repr, DecidableEq

/-- JavaScript truthiness of a field value (arrays are always truthy,
including the empty array). -/
def jtruthy : JField α → Bool
  | .jarr _ => true
  | .jnum q => decide (q ≠ 0)
  | .jnan => false
  | .jstr s => decide (s ≠ "")
  | .jbool b => b
  | .jnull => false
  | .jundef => false

/-- `Array.isArray` on a field value. -/
def jisArray : JField α → Bool
  | .jarr _ => true
  | _ => false

/-- `typeof v === 'number'` on a field value (`NaN` is a number). -/
def jisNumber : JField α → Bool
  | .jnum _ => true
  | .jnan => true
  | _ => false

/-- The array contents of a field value (only consulted after
`jisArray` holds). -/
def jarrGet : JField α → List α
  | .jarr xs => xs
  | _ => []

/-- The numeric value of a field (only consulted after `jisNumber`
holds); `none` is `NaN`. -/
def jnumGet : JField α → Option ℚ
  | .jnum q => some q
  | _ => none

/-- An import payload object with its three fields, each of arbitrary
JavaScript shape.  The element type of the `points` field never matters,
so it is `Unit`. -/
structure ImportPayload where
  ducks : JField CollectedItem
  points : JField Unit
  achievements : JField Achievement
deriving Repr, DecidableEq

/-- `CollectionManager.importData`: each field is applied independently
when it has the right shape (`data.ducks && Array.isArray(data.ducks)`,
`typeof data.points === 'number'`, likewise for `achievements`);
malformed fields are silently skipped.  Nothing in the body throws on a
payload object, so the function returns `true`. -/
def importData (st : CollectionManager) (data : ImportPayload) :
    CollectionManager × Bool :=
  let st1 := if jtruthy data.ducks && jisArray data.ducks then
      { st with ducks := jarrGet data.ducks } else st
  let st2 := if jisNumber data.points then
      { st1 with points := jnumGet data.points } else st1
  let st3 := if jtruthy data.achievements && jisArray data.achievements then
      { st2 with achievements := jarrGet data.achievements } else st2
  (st3, true)

/-! ## Persistence load (`CollectionManager.loadSavedData`)

`loadSavedData` reads three independent keys.  The two `JSON.parse`
calls are modelled by their outcomes (`Except.error` = the call threw);
`parseInt` is modelled concretely below, with `none` = `NaN`. -/

/-- JavaScript whitespace skipped by `parseInt`. -/
def isJsSpace (c : Char) : Bool :=
  c == ' ' || c == '\t' || c == '\n' || c == '\r'

/-- Hexadecimal digit test for `parseInt`'s `0x` prefix handling. -/
def isHexDigitJS (c : Char) : Bool :=
  c.isDigit || ('a' ≤ c && c ≤ 'f') || ('A' ≤ c && c ≤ 'F')

/-- Value of one hexadecimal digit. -/
def hexDigitVal (c : Char) : ℕ :=
  if c.isDigit then c.toNat - '0'.toNat
  else if 'a' ≤ c && c ≤ 'f' then c.toNat - 'a'.toNat + 10
  else c.toNat - 'A'.toNat + 10

/-- Digits-to-value accumulation in a given base. -/
def digitsVal (base : ℕ) (cs : List Char) : ℕ :=
  cs.foldl (fun acc c => acc * base + hexDigitVal c) 0

/-- The longest leading run of decimal digits, `none` (`NaN`) if empty. -/
def parseDecDigits (cs : List Char) : Option ℕ :=
  let ds := cs.takeWhile Char.isDigit
  if ds.isEmpty then none else some (digitsVal 10 ds)

/-- Unsigned part of `parseInt` (radix unspecified): a `0x`/`0X` prefix
switches to hexadecimal, otherwise decimal; `none` when no digit follows. -/
def parseUnsigned : List Char → Option ℕ
  | '0' :: x :: rest =>
      if x == 'x' || x == 'X' then
        let ds := rest.takeWhile isHexDigitJS
        if ds.isEmpty then none else some (digitsVal 16 ds)
      else parseDecDigits ('0' :: x :: rest)
  | cs => parseDecDigits cs

/-- JavaScript `parseInt(s)` (no radix argument): skip leading
whitespace, optional sign, then the longest valid digit prefix;
`none` = `NaN` when no digits are found. -/
def parseIntJS (s : String) : Option ℤ :=
  let cs := s.data.dropWhile isJsSpace
  match cs with
  | '-' :: rest => (parseUnsigned rest).map (fun n => -(n : ℤ))
  | '+' :: rest => (parseUnsigned rest).map (fun n => (n : ℤ))
  | rest => (parseUnsigned rest).map (fun n => (n : ℤ))

/-- JavaScript `s || d` for a nullable string: `null` and `""` are falsy. -/
def jsOrDefault (o : Option String) (d : String) : String :=
  match o with
  | some s => if s == "" then d else s
  | none => d

/-- `CollectionManager.loadSavedData`.  `ducksVal` and `achVal` are the
outcomes of `JSON.parse(localStorage.getItem(key) || '[]')` for the
`collectedDucks` and `achievements` keys (`Except.error` = the parse
threw); `pointsRaw` is the raw `localStorage.getItem('loyaltyPoints')`
string.  If either `JSON.parse` throws, the `catch` branch calls
`resetData`, so all three fields become the defaults; `parseInt` itself
never throws and can leave `NaN` in `points`. -/
def loadSavedData (st : CollectionManager)
    (ducksVal : Except Unit (List CollectedItem))
    (pointsRaw : Option String)
    (achVal : Except Unit (List Achievement)) : CollectionManager :=
  match ducksVal, achVal with
  | Except.ok ds, Except.ok achs =>
      { st with
        ducks := ds,
        points := (parseIntJS (jsOrDefault pointsRaw "0")).map
          (fun z => (z : ℚ)),
        achievements := achs }
  | _, _ => resetData st

/-! ## Orientation filter

Two smoothing implementations exist in the repository:
`MotionSensorManager.smoothValue` (src/unnamed/part_000, plain blend,
no wraparound) and the standalone `smoothValue(current, target, factor,
isAlpha)` of the orientation pipeline (src/unnamed/part_003 and
src/test-smoothing.js, with wraparound handling for the alpha axis). -/

/-- The current smoothed orientation `{ alpha, beta, gamma }`. -/
structure Orientation3 where
  alpha : ℚ
  beta : ℚ
  gamma : ℚ
deriving Repr, DecidableEq

/-- `MotionSensorManager` state (the fields its orientation handling
reads: `isActive`, `smoothingFactor`, `orientation`). -/
structure MotionSensorManager where
  isActive : Bool
  smoothingFactor : ℚ
  orientation : Orientation3
deriving Repr, DecidableEq

/-- `MotionSensorManager.smoothValue`:
`current * this.smoothingFactor + target * (1 - this.smoothingFactor)`,
with no wraparound handling on any axis. -/
def msmSmoothValue (current target factor : ℚ) : ℚ :=
  current * factor + target * (1 - factor)

/-- `MotionSensorManager.handleOrientationChange`: when active, smooths
each axis of the event (`event.alpha || 0` modelled as defaulting an
absent axis to 0) against the stored orientation with `smoothValue`. -/
def handleOrientationChange (st : MotionSensorManager)
    (eventAlpha eventBeta eventGamma : Option ℚ) : MotionSensorManager :=
  if !st.isActive then st
  else
    let a := eventAlpha.getD 0
    let b := eventBeta.getD 0
    let g := eventGamma.getD 0
    { st with orientation :=
        ⟨msmSmoothValue st.orientation.alpha a st.smoothingFactor,
         msmSmoothValue st.orientation.beta b st.smoothingFactor,
         msmSmoothValue st.orientation.gamma g st.smoothingFactor⟩ }

/-- The standalone `smoothValue(current, target, factor, isAlpha)` of the
orientation pipeline (src/unnamed/part_003): for the alpha axis, when
`|target - current| > 180`, 360 is added to the smaller of the two
before blending, and the blended value is renormalized by one
addition/subtraction of 360. -/
def smoothValue (current target factor : ℚ) (isAlpha : Bool) : ℚ :=
  let p : ℚ × ℚ :=
    if isAlpha && decide (|target - current| > 180) then
      if target > current then (current + 360, target)
      else (current, target + 360)
    else (current, target)
  let smoothed := p.1 * factor + p.2 * (1 - factor)
  if isAlpha then
    if smoothed > 360 then smoothed - 360
    else if smoothed < 0 then smoothed + 360
    else smoothed
  else smoothed

/-- `applySmoothingToOrientation` of the standalone pipeline: alpha with
`isAlpha = true`, beta and gamma without. -/
def applySmoothingToOrientation (st : Orientation3) (raw : Orientation3)
    (factor : ℚ) : Orientation3 :=
  ⟨smoothValue st.alpha raw.alpha factor true,
   smoothValue st.beta raw.beta factor false,
   smoothValue st.gamma raw.gamma factor false⟩

/-- Iterated `MotionSensorManager.smoothValue` toward a fixed target. -/
def iterSmooth (factor target start : ℚ) : ℕ → ℚ
  | 0 => start
  | n + 1 => msmSmoothValue (iterSmooth factor target start n) target factor

/-- Angular distance on the 0–360 circle between two headings. -/
def angDist (a b : ℚ) : ℚ := min |a - b| (360 - |a - b|)

/-! ## Spawn selector (`DuckSpawner`, src/js/managers/DuckSpawner.js)

Random draws, spawn positions, ids and times are passed in explicitly.
`generateSpawnPosition` only feeds the rendering collaborator, so a
spawn position is passed through opaquely. -/

/-- A spawned position `{ x, y, z }`. -/
structure Pos where
  x : ℚ
  y : ℚ
  z : ℚ
deriving Repr, DecidableEq

/-- One entry of `DuckSpawner.activeDucks`. -/
structure SpawnedDuck where
  id : ℚ
  type : Option DuckType
  position : Pos
  spawnTime : ℕ
  isActive : Bool
deriving Repr, DecidableEq

/-- `DuckSpawner.spawnSettings`. -/
structure SpawnSettings where
  baseInterval : ℚ
  randomVariation : ℚ
  spawnChance : ℚ
  maxConcurrentDucks : ℕ
deriving Repr, DecidableEq

/-- `DuckSpawner` state (fields read by the spawn path). -/
structure DuckSpawner where
  duckTypes : List DuckType
  isSpawning : Bool
  spawnSettings : SpawnSettings
  activeDucks : List SpawnedDuck
deriving Repr, DecidableEq

/-- The fixed three-category catalog (`DuckSpawner.duckTypes`, also the
local catalog inside `ARManager.getDuckByRarity`). -/
def standardDuckTypes : List DuckType :=
  [⟨"🐥", "Yellow Duck", 10, 6/10⟩,
   ⟨"🌟", "Golden Duck", 50, 3/10⟩,
   ⟨"👑", "Royal Duck", 100, 1/10⟩]

/-- The cumulative loop of `getDuckByRarity`: accumulate
`cumulative += duck.rarity` and return the first duck with
`rand <= cumulative`. -/
def getDuckByRarityGo (rand : ℚ) (cumulative : ℚ) :
    List DuckType → Option DuckType
  | [] => none
  | d :: rest =>
      let c := cumulative + d.rarity
      if rand ≤ c then some d else getDuckByRarityGo rand c rest

/-- `DuckSpawner.getDuckByRarity` (identical logic in
`ARManager.getDuckByRarity`): the cumulative scan over the catalog with
draw `rand`, falling back to the first catalog entry (`duckTypes[0]`,
i.e. `head?`) when the loop finds none. -/
def getDuckByRarity (types : List DuckType) (rand : ℚ) : Option DuckType :=
  match getDuckByRarityGo rand 0 types with
  | some d => some d
  | none => types.head?

/-- `DuckSpawner.spawnDuck`: draws a category (`getDuckByRarity` with
draw `catR`), builds the duck (id `idv`, position `pos`, time `now`) and
pushes it onto `activeDucks` — with no concurrency-cap check.  The 30 s
expiry is a separate timer event and not part of this step. -/
def spawnDuck (st : DuckSpawner) (catR : ℚ) (pos : Pos) (idv : ℚ)
    (now : ℕ) : DuckSpawner :=
  let duckType := getDuckByRarity st.duckTypes catR
  { st with activeDucks :=
      st.activeDucks ++ [⟨idv, duckType, pos, now, true⟩] }

/-- `DuckSpawner.attemptSpawn` with gate draw `gateR`: returns the new
state and whether a category draw took place (i.e. whether `spawnDuck`
ran).  The gate fails when `gateR > spawnChance`; the cap check refuses
when `activeDucks.length >= maxConcurrentDucks`. -/
def attemptSpawn (st : DuckSpawner) (gateR catR : ℚ) (pos : Pos)
    (idv : ℚ) (now : ℕ) : DuckSpawner × Bool :=
  if !st.isSpawning then (st, false)
  else if gateR > st.spawnSettings.spawnChance then (st, false)
  else if st.spawnSettings.maxConcurrentDucks ≤ st.activeDucks.length then
    (st, false)
  else (spawnDuck st catR pos idv now, true)

/-- `DuckSpawner.forceSpawn`: calls `spawnDuck` directly. -/
def forceSpawn (st : DuckSpawner) (catR : ℚ) (pos : Pos) (idv : ℚ)
    (now : ℕ) : DuckSpawner :=
  spawnDuck st catR pos idv now

/-- `DuckSpawner.spawnSpecificDuck`: looks the name up in the catalog
(`find`), returns `null` leaving the state unchanged when absent,
otherwise pushes the new duck unconditionally. -/
def spawnSpecificDuck (st : DuckSpawner) (duckTypeName : String)
    (pos : Pos) (idv : ℚ) (now : ℕ) :
    DuckSpawner × Option SpawnedDuck :=
  match st.duckTypes.find? (fun t => t.name == duckTypeName) with
  | none => (st, none)
  | some dt =>
      let duck : SpawnedDuck := ⟨idv, some dt, pos, now, true⟩
      ({ st with activeDucks := st.activeDucks ++ [duck] }, some duck)

/-! ## Derived state predicates used by the claims -/

/-- The ledger invariant: `points` equals the sum of the `points` values
of the collected items. -/
def pointsInv (st : CollectionManager) : Prop :=
  st.points = some ((st.ducks.map CollectedItem.points).sum)

/-- A sequence of `collectDuck` calls (each step carries the duck type
and its creation-time id and timestamp). -/
def collectRun (st : CollectionManager) :
    List (DuckType × ℕ × ℕ) → CollectionManager
  | [] => st
  | s :: rest => collectRun (collectDuck st s.1 s.2.1 s.2.2).1 rest

/-! ## Helper lemmas -/

/-- Closed form of the iterated smoothing step. -/
lemma iterSmooth_sub_target (factor target start : ℚ) :
    ∀ n, iterSmooth factor target start n - target
      = factor ^ n * (start - target) := by
  intro n
  induction n with
  | zero => simp [iterSmooth]
  | succ n ih =>
      have : iterSmooth factor target start (n + 1) - target
          = factor * (iterSmooth factor target start n - target) := by
        simp only [iterSmooth, msmSmoothValue]; ring
      rw [this, ih, pow_succ]; ring

/-- `checkAchievements` leaves the item list unchanged. -/
lemma checkAchievements_ducks (st : CollectionManager) :
    (checkAchievements st).ducks = st.ducks := rfl

/-- `checkAchievements` leaves the points unchanged. -/
lemma checkAchievements_points (st : CollectionManager) :
    (checkAchievements st).points = st.points := rfl

/-! ## Claim theorems -/

/-- C8: one smoothing step of `MotionSensorManager.smoothValue` (and of
the standalone `smoothValue` on a non-alpha axis) returns
`current * factor + target * (1 - factor)`; for every `factor ∈ [0, 1]`
repeated application toward a fixed target monotonically approaches the
target (`|new - target| ≤ |current - target|`) and never overshoots:
the sign of `target - value` never flips across iterations. -/
theorem C8_smoothing_monotone (c t f : ℚ) (hf0 : 0 ≤ f) (hf1 : f ≤ 1) :
    msmSmoothValue c t f = c * f + t * (1 - f) ∧
    smoothValue c t f false = msmSmoothValue c t f ∧
    |msmSmoothValue c t f - t| ≤ |c - t| ∧
    (∀ n, |iterSmooth f t c (n + 1) - t| ≤ |iterSmooth f t c n - t|) ∧
    (∀ n, 0 ≤ (t - iterSmooth f t c n) * (t - c)) := by
  have habs : ∀ n, |iterSmooth f t c n - t| = f ^ n * |c - t| := by
    intro n
    rw [iterSmooth_sub_target, abs_mul, abs_pow, abs_of_nonneg hf0]
  refine ⟨rfl, rfl, ?_, ?_, ?_⟩
  · have h1 := habs 1
    have h0 := habs 0
    simp only [pow_one, pow_zero, one_mul] at h1 h0
    have : iterSmooth f t c 1 = msmSmoothValue c t f := rfl
    rw [this] at h1
    rw [h1]
    calc f * |c - t| ≤ 1 * |c - t| :=
          mul_le_mul_of_nonneg_right hf1 (abs_nonneg _)
      _ = |c - t| := one_mul _
  · intro n
    rw [habs, habs]
    have hpow : f ^ (n + 1) ≤ f ^ n := pow_le_pow_of_le_one hf0 hf1 (Nat.le_succ n)
    exact mul_le_mul_of_nonneg_right hpow (abs_nonneg _)
  · intro n
    have h := iterSmooth_sub_target f t c n
    have : (t - iterSmooth f t c n) * (t - c) = f ^ n * (t - c) ^ 2 := by
      have ht : t - iterSmooth f t c n = f ^ n * (t - c) := by linarith [h]
      rw [ht]; ring
    rw [this]
    positivity

/-- C8 witness: the theorem instantiated at `current = 0`, `target = 10`,
`factor = 1/2`. -/
theorem C8_smoothing_monotone_witness :
    |msmSmoothValue 0 10 (1/2) - 10| ≤ |(0 : ℚ) - 10| :=
  (C8_smoothing_monotone 0 10 (1/2) (by norm_num) (by norm_num)).2.2.1

/-- C9: a spawn attempt whose gate draw fails (`gateR > spawnChance`) or
that finds the active list at or above `maxConcurrentDucks` makes no
category draw (the returned flag is `false`, i.e. `spawnDuck` never ran)
and returns the spawner state unchanged. -/
theorem C9_attempt_gate_no_spawn (st : DuckSpawner) (gateR catR : ℚ)
    (pos : Pos) (idv : ℚ) (now : ℕ)
    (h : gateR > st.spawnSettings.spawnChance
      ∨ st.spawnSettings.maxConcurrentDucks ≤ st.activeDucks.length) :
    attemptSpawn st gateR catR pos idv now = (st, false) := by
  unfold attemptSpawn
  split
  · rfl
  · rcases h with h | h
    · rw [if_pos h]
    · by_cases hg : gateR > st.spawnSettings.spawnChance
      · rw [if_pos hg]
      · rw [if_neg hg, if_pos h]

/-- C9 witness: a live spawner with `spawnChance = 0.3` and an empty
active list; the gate draw `0.5` fails and the attempt is a no-op. -/
theorem C9_attempt_gate_no_spawn_witness :
    attemptSpawn ⟨standardDuckTypes, true, ⟨10000, 5000, 3/10, 3⟩, []⟩
      (1/2) (1/4) ⟨0, 0, 0⟩ 7 0
      = (⟨standardDuckTypes, true, ⟨10000, 5000, 3/10, 3⟩, []⟩, false) :=
  C9_attempt_gate_no_spawn _ _ _ _ _ _ (Or.inl (by norm_num))

/-- C10: the concurrency cap is enforced only by `attemptSpawn` —
`spawnDuck` (hence `forceSpawn`) and `spawnSpecificDuck` with a name
present in the catalog each unconditionally append exactly one duck to
the active list, so through those entry points the active-duck count can
exceed `maxConcurrentDucks` (witnessed by a state already at its cap). -/
theorem C10_spawn_bypasses_cap :
    (∀ (st : DuckSpawner) (catR : ℚ) (pos : Pos) (idv : ℚ) (now : ℕ),
      (spawnDuck st catR pos idv now).activeDucks.length
        = st.activeDucks.length + 1) ∧
    (∀ (st : DuckSpawner) (catR : ℚ) (pos : Pos) (idv : ℚ) (now : ℕ),
      (forceSpawn st catR pos idv now).activeDucks.length
        = st.activeDucks.length + 1) ∧
    (∀ (st : DuckSpawner) (nm : String) (pos : Pos) (idv : ℚ) (now : ℕ),
      st.duckTypes.any (fun ty => ty.name == nm) = true →
      (spawnSpecificDuck st nm pos idv now).1.activeDucks.length
        = st.activeDucks.length + 1) ∧
    (∃ (st : DuckSpawner) (catR : ℚ) (pos : Pos) (idv : ℚ) (now : ℕ),
      st.spawnSettings.maxConcurrentDucks ≤ st.activeDucks.length ∧
      st.spawnSettings.maxConcurrentDucks
        < (spawnDuck st catR pos idv now).activeDucks.length) := by
  have hlen : ∀ (st : DuckSpawner) (catR : ℚ) (pos : Pos) (idv : ℚ) (now : ℕ),
      (spawnDuck st catR pos idv now).activeDucks.length
        = st.activeDucks.length + 1 := by
    intro st catR pos idv now
    simp [spawnDuck]
  refine ⟨hlen, fun st catR pos idv now => hlen st catR pos idv now, ?_, ?_⟩
  · intro st nm pos idv now h
    rcases List.any_eq_true.mp h with ⟨ty, hmem, hty⟩
    have hsome : (st.duckTypes.find? (fun ty => ty.name == nm)).isSome :=
      List.find?_isSome.mpr ⟨ty, hmem, hty⟩
    rcases Option.isSome_iff_exists.mp hsome with ⟨dt, hdt⟩
    simp [spawnSpecificDuck, hdt]
  · refine ⟨⟨standardDuckTypes, true, ⟨10000, 5000, 3/10, 0⟩, []⟩,
      1/2, ⟨0, 0, 0⟩, 7, 0, ?_, ?_⟩
    · simp
    · simp [spawnDuck]

/-- C10 witness: `spawnSpecificDuck` with the catalog name
`"Golden Duck"` on a spawner already holding its maximum of zero ducks
still appends. -/
theorem C10_spawn_bypasses_cap_witness :
    (spawnSpecificDuck ⟨standardDuckTypes, true, ⟨10000, 5000, 3/10, 0⟩, []⟩
      "Golden Duck" ⟨0, 0, 0⟩ 7 0).1.activeDucks.length
      = (0 : ℕ) + 1 :=
  C10_spawn_bypasses_cap.2.2.1
    ⟨standardDuckTypes, true, ⟨10000, 5000, 3/10, 0⟩, []⟩
    "Golden Duck" ⟨0, 0, 0⟩ 7 0 (by decide)

/-- When the accumulated weight never reaches the draw, the cumulative
scan of `getDuckByRarity` finds no entry. -/
lemma getDuckByRarityGo_eq_none (rand : ℚ) :
    ∀ (types : List DuckType) (cumulative : ℚ),
      (∀ d ∈ types, 0 ≤ d.rarity) →
      cumulative + (types.map DuckType.rarity).sum < rand →
      getDuckByRarityGo rand cumulative types = none := by
  intro types
  induction types with
  | nil => intro cumulative _ _; rfl
  | cons d rest ih =>
      intro cumulative hnn hsum
      have hd : 0 ≤ d.rarity := hnn d (List.mem_cons_self d rest)
      have hrest : ∀ x ∈ rest, 0 ≤ x.rarity :=
        fun x hx => hnn x (List.mem_cons_of_mem d hx)
      have hrestsum : 0 ≤ (rest.map DuckType.rarity).sum :=
        List.sum_nonneg (by
          intro q hq
          rcases List.mem_map.mp hq with ⟨x, hx, rfl⟩
          exact hrest x hx)
      have hsum' : cumulative + d.rarity + (rest.map DuckType.rarity).sum
          < rand := by
        simp only [List.map_cons, List.sum_cons] at hsum
        linarith
      have hlt : ¬ rand ≤ cumulative + d.rarity := by linarith
      simp only [getDuckByRarityGo, if_neg hlt]
      exact ih (cumulative + d.rarity) hrest hsum'

/-- C3 counterexample: the claim asserts the draw `r = 0.6` selects
category 1 (`0.6 <= r < 0.9` → Golden Duck), but the code's
`rand <= cumulative` test selects category 0 (Yellow Duck) at exactly
`0.6`. -/
theorem C3_counterexample :
    (getDuckByRarity standardDuckTypes (6/10)).map DuckType.name
        = some "Yellow Duck" ∧
      some "Yellow Duck" ≠ some "Golden Duck" := by
  constructor
  · simp only [getDuckByRarity, getDuckByRarityGo, standardDuckTypes, zero_add]
    rw [if_pos (by norm_num : (6/10 : ℚ) ≤ 6/10)]
    rfl
  · decide

/-- C3 (amended): with the three-category catalog, the code's boundary
behavior is `r <= cumulative`: category 0 for `r ≤ 0.6`, category 1 for
`0.6 < r ≤ 0.9`, category 2 for `0.9 < r ≤ 1`; and for any catalog with
nonnegative weights summing to less than `r`, the scan falls back to the
first catalog entry instead of crashing. -/
theorem C3_weighted_selection :
    (∀ r : ℚ,
      (r ≤ 6/10 →
        (getDuckByRarity standardDuckTypes r).map DuckType.name
          = some "Yellow Duck") ∧
      (6/10 < r → r ≤ 9/10 →
        (getDuckByRarity standardDuckTypes r).map DuckType.name
          = some "Golden Duck") ∧
      (9/10 < r → r ≤ 1 →
        (getDuckByRarity standardDuckTypes r).map DuckType.name
          = some "Royal Duck")) ∧
    (∀ (types : List DuckType) (r : ℚ),
      (∀ d ∈ types, 0 ≤ d.rarity) →
      (types.map DuckType.rarity).sum < r →
      getDuckByRarity types r = types.head?) := by
  constructor
  · intro r
    refine ⟨fun h1 => ?_, fun h1 h2 => ?_, fun h1 h2 => ?_⟩
    · simp only [getDuckByRarity, getDuckByRarityGo, standardDuckTypes, zero_add]
      rw [if_pos (by linarith : r ≤ 6/10)]
      rfl
    · simp only [getDuckByRarity, getDuckByRarityGo, standardDuckTypes, zero_add]
      rw [if_neg (by linarith : ¬ r ≤ 6/10),
        if_pos (by linarith : r ≤ 6/10 + 3/10)]
      rfl
    · simp only [getDuckByRarity, getDuckByRarityGo, standardDuckTypes, zero_add]
      rw [if_neg (by linarith : ¬ r ≤ 6/10),
        if_neg (by linarith : ¬ r ≤ 6/10 + 3/10),
        if_pos (by linarith : r ≤ 6/10 + 3/10 + 1/10)]
      rfl
  · intro types r hnn hsum
    have h0 : (0 : ℚ) + (types.map DuckType.rarity).sum < r := by
      rw [zero_add]; exact hsum
    rw [getDuckByRarity, getDuckByRarityGo_eq_none r types 0 hnn h0]

/-- C3 witness: an interior draw selects the Yellow category, and a
one-entry catalog whose weight sum `0.1` is below the draw `0.5` falls
back to its first entry. -/
theorem C3_weighted_selection_witness :
    (getDuckByRarity standardDuckTypes (1/2)).map DuckType.name
        = some "Yellow Duck" ∧
      getDuckByRarity [⟨"a", "A", 1, 1/10⟩] (1/2)
        = ([⟨"a", "A", 1, 1/10⟩] : List DuckType).head? :=
  ⟨((C3_weighted_selection.1 (1/2)).1 (by norm_num)),
   C3_weighted_selection.2 [⟨"a", "A", 1, 1/10⟩] (1/2)
     (by intro d hd; simp at hd; rw [hd]; norm_num)
     (by norm_num)⟩

/-- C1 counterexample: a payload whose `points` field is the string
`"5"` but whose `ducks` field is a well-formed array is not rejected —
`importData` reports success (`true`) and replaces the item list, so
the ledger state changes. -/
theorem C1_counterexample :
    (importData cmInit
        ⟨JField.jarr [⟨"🐥", "Yellow Duck", 10, 6/10, 1, 2, true⟩],
         JField.jstr "5", JField.jundef⟩).2 = true ∧
    (importData cmInit
        ⟨JField.jarr [⟨"🐥", "Yellow Duck", 10, 6/10, 1, 2, true⟩],
         JField.jstr "5", JField.jundef⟩).1 ≠ cmInit := by
  constructor
  · rfl
  · decide

/-- C1 (amended): `importData` validates each field independently.  On a
payload whose `points` field is not a number, `points` is left
unchanged, but the call still reports success (`true`) and still applies
a well-shaped `ducks` field (and leaves a malformed one unchanged) —
malformed fields are skipped, not rejected wholesale. -/
theorem C1_import_per_field (st : CollectionManager) (data : ImportPayload)
    (h : jisNumber data.points = false) :
    (importData st data).2 = true ∧
    (importData st data).1.points = st.points ∧
    (importData st data).1.ducks
      = (if jtruthy data.ducks && jisArray data.ducks
          then jarrGet data.ducks else st.ducks) ∧
    (importData st data).1.achievements
      = (if jtruthy data.achievements && jisArray data.achievements
          then jarrGet data.achievements else st.achievements) := by
  unfold importData
  by_cases hd : (jtruthy data.ducks && jisArray data.ducks) = true <;>
    by_cases ha :
      (jtruthy data.achievements && jisArray data.achievements) = true <;>
    simp [h, hd, ha]

/-- C1 witness: the amended theorem at the counterexample payload. -/
theorem C1_import_per_field_witness :
    (importData cmInit
        ⟨JField.jarr [⟨"🐥", "Yellow Duck", 10, 6/10, 1, 2, true⟩],
         JField.jstr "5", JField.jundef⟩).1.points = cmInit.points :=
  (C1_import_per_field cmInit
    ⟨JField.jarr [⟨"🐥", "Yellow Duck", 10, 6/10, 1, 2, true⟩],
     JField.jstr "5", JField.jundef⟩ rfl).2.1

/-- One `collectDuck` step preserves the points-equals-sum invariant and
grows the item list by one. -/
lemma collectDuck_inv (st : CollectionManager) (d : DuckType)
    (idv now : ℕ) (h : pointsInv st) :
    pointsInv (collectDuck st d idv now).1 ∧
    (collectDuck st d idv now).1.ducks.length = st.ducks.length + 1 := by
  unfold pointsInv at h ⊢
  unfold collectDuck
  constructor
  · rw [checkAchievements_points, checkAchievements_ducks]
    simp only [h, jadd, List.map_append, List.sum_append, List.map_cons,
      List.map_nil, List.sum_cons, List.sum_nil]
    norm_num
  · rw [checkAchievements_ducks]
    simp

/-- A run of `collectDuck` steps preserves the invariant, adds one item
per step, and adds each step's point value to the total. -/
lemma collectRun_inv (steps : List (DuckType × ℕ × ℕ)) :
    ∀ st : CollectionManager, pointsInv st →
      pointsInv (collectRun st steps) ∧
      (collectRun st steps).ducks.length
        = st.ducks.length + steps.length ∧
      jadd st.points (some ((steps.map (fun s => s.1.points)).sum))
        = (collectRun st steps).points := by
  induction steps with
  | nil =>
      intro st h
      refine ⟨h, by simp [collectRun], ?_⟩
      unfold pointsInv at h
      simp only [collectRun, List.map_nil, List.sum_nil]
      rw [h]
      simp [jadd]
  | cons s rest ih =>
      intro st h
      have hstep := collectDuck_inv st s.1 s.2.1 s.2.2 h
      have hrec := ih (collectDuck st s.1 s.2.1 s.2.2).1 hstep.1
      refine ⟨hrec.1, ?_, ?_⟩
      · show (collectRun (collectDuck st s.1 s.2.1 s.2.2).1 rest).ducks.length
          = st.ducks.length + (s :: rest).length
        rw [hrec.2.1, hstep.2]
        simp
        omega
      · show jadd st.points
            (some (((s :: rest).map (fun s => s.1.points)).sum))
          = (collectRun (collectDuck st s.1 s.2.1 s.2.2).1 rest).points
        rw [← hrec.2.2]
        have hpts : (collectDuck st s.1 s.2.1 s.2.2).1.points
            = jadd st.points (some s.1.points) := by
          unfold collectDuck
          rw [checkAchievements_points]
        rw [hpts]
        cases st.points with
        | none => simp [jadd]
        | some q =>
            simp only [jadd, List.map_cons, List.sum_cons]
            norm_num
            ring

/-- C4 counterexample: `importData` is a mutating ledger operation that
breaks the points-equals-sum invariant — importing `points = 5` with no
item field leaves an empty item list whose point sum is `0 ≠ 5`. -/
theorem C4_counterexample :
    (importData cmInit ⟨JField.jundef, JField.jnum 5, JField.jundef⟩).1.points
        = some 5 ∧
    (importData cmInit ⟨JField.jundef, JField.jnum 5, JField.jundef⟩).1.ducks
        = [] ∧
    ¬ pointsInv
        (importData cmInit ⟨JField.jundef, JField.jnum 5, JField.jundef⟩).1 := by
  refine ⟨rfl, rfl, ?_⟩
  unfold pointsInv
  decide

/-- C4 (amended): starting from the empty ledger, after any sequence of
`collectDuck` calls the points equal the sum of the collected point
values and the item count equals the number of calls; the invariant
`points = Σ pointValue` is preserved by every `collectDuck` step — but
not by every mutating operation (`importData` can break it, see the
counterexample). -/
theorem C4_points_invariant :
    (∀ (st : CollectionManager) (d : DuckType) (idv now : ℕ),
      pointsInv st → pointsInv (collectDuck st d idv now).1) ∧
    (∀ steps : List (DuckType × ℕ × ℕ),
      (collectRun cmInit steps).points
          = some ((steps.map (fun s => s.1.points)).sum) ∧
      (collectRun cmInit steps).ducks.length = steps.length) := by
  constructor
  · intro st d idv now h
    exact (collectDuck_inv st d idv now h).1
  · intro steps
    have h0 : pointsInv cmInit := by unfold pointsInv cmInit; simp
    have h := collectRun_inv steps cmInit h0
    refine ⟨?_, ?_⟩
    · rw [← h.2.2]
      show jadd (some 0) _ = _
      simp [jadd]
    · rw [h.2.1]
      simp [cmInit]

/-- C4 witness: collecting two ducks worth 10 and 50 points from the
empty ledger yields `points = 60` and two items. -/
theorem C4_points_invariant_witness :
    (collectRun cmInit
        [(⟨"🐥", "Yellow Duck", 10, 6/10⟩, 1, 2),
         (⟨"🌟", "Golden Duck", 50, 3/10⟩, 3, 4)]).points
      = some (([(10 : ℚ), 50]).sum) :=
  (C4_points_invariant.2
    [(⟨"🐥", "Yellow Duck", 10, 6/10⟩, 1, 2),
     (⟨"🌟", "Golden Duck", 50, 3/10⟩, 3, 4)]).1

/-- C5 counterexample: with items and achievements parsing fine but the
stored points string `"abc"` non-numeric, `loadSavedData` does not load
`0` — `parseInt` yields `NaN` (no exception, so the catch-and-reset path
never runs) and `NaN` is stored in `points`. -/
theorem C5_counterexample :
    (loadSavedData cmInit (Except.ok []) (some "abc") (Except.ok [])).points
        = none ∧
    (loadSavedData cmInit (Except.ok []) (some "abc") (Except.ok [])).points
        ≠ some 0 := by
  constructor
  · rfl
  · decide

/-- C5 (amended): `loadSavedData` restores the three pieces of state
from their three keys; a `JSON.parse` failure on either the items or the
achievements key resets all three to the defaults `([], 0, [])`; a
missing points key loads as `0`; but a non-numeric points string loads
as `NaN` (modelled `none`), not `0`, because `parseInt` does not throw. -/
theorem C5_load_behavior :
    (∀ (st : CollectionManager) (p : Option String)
        (a : Except Unit (List Achievement)),
      loadSavedData st (Except.error ()) p a = cmInit) ∧
    (∀ (st : CollectionManager) (d : Except Unit (List CollectedItem))
        (p : Option String),
      loadSavedData st d p (Except.error ()) = cmInit) ∧
    (∀ (st : CollectionManager) (ds : List CollectedItem)
        (achs : List Achievement),
      loadSavedData st (Except.ok ds) none (Except.ok achs)
        = ⟨ds, some 0, achs⟩) ∧
    (∀ (st : CollectionManager) (ds : List CollectedItem)
        (achs : List Achievement),
      loadSavedData st (Except.ok ds) (some "42") (Except.ok achs)
        = ⟨ds, some 42, achs⟩) ∧
    (∀ (st : CollectionManager) (ds : List CollectedItem)
        (achs : List Achievement),
      loadSavedData st (Except.ok ds) (some "abc") (Except.ok achs)
        = ⟨ds, none, achs⟩) := by
  refine ⟨?_, ?_, ?_, ?_, ?_⟩
  · intro st p a
    rfl
  · intro st d p
    cases d <;> rfl
  · intro st ds achs
    rfl
  · intro st ds achs
    show CollectionManager.mk ds
        ((parseIntJS "42").map (fun z => (z : ℚ))) achs = _
    have h42 : parseIntJS "42" = some 42 := by decide
    rw [h42]
    rfl
  · intro st ds achs
    rfl

/-- The JavaScript remainder of a nonnegative number by a positive
number lies in `[0, m)`. -/
lemma jsRem_bounds (q m : ℚ) (hq : 0 ≤ q) (hm : 0 < m) :
    0 ≤ jsRem q m ∧ jsRem q m < m := by
  have hm' : m ≠ 0 := ne_of_gt hm
  have hdiv : 0 ≤ q / m := div_nonneg hq (le_of_lt hm)
  have htr : ratTrunc (q / m) = ⌊q / m⌋ := by
    unfold ratTrunc
    rw [if_pos hdiv]
  have e1 : m * (q / m) = q := by field_simp
  have h1 : (⌊q / m⌋ : ℚ) ≤ q / m := Int.floor_le _
  have h2 : q / m < (⌊q / m⌋ : ℚ) + 1 := Int.lt_floor_add_one _
  have h1' : m * (⌊q / m⌋ : ℚ) ≤ q := by
    calc m * (⌊q / m⌋ : ℚ) ≤ m * (q / m) :=
          mul_le_mul_of_nonneg_left h1 (le_of_lt hm)
      _ = q := e1
  have h2' : q < m * ((⌊q / m⌋ : ℚ) + 1) := by
    calc q = m * (q / m) := e1.symm
      _ < m * ((⌊q / m⌋ : ℚ) + 1) := by
          exact mul_lt_mul_of_pos_left h2 hm
  unfold jsRem
  rw [htr]
  constructor
  · linarith
  · nlinarith

/-- C6: for a ledger whose points value is a nonnegative integer,
`calculateRewards` returns exactly the tiers with `points >= threshold`
(the spec-side filter `rewardsBySpec`): the extra conjunct
`points % tier.points < tier.points` is true at every tier for every
such points value, so it never excludes a tier. -/
theorem C6_rewards_filter (st : CollectionManager) (n : ℕ)
    (h : st.points = some (n : ℚ)) :
    calculateRewards st = rewardsBySpec st ∧
    (∀ tier ∈ rewardTiers,
      jltB (jrem st.points tier.points) tier.points = true) := by
  have hpos : ∀ tier ∈ rewardTiers, (0 : ℚ) < tier.points := by
    intro tier htier
    fin_cases htier <;> norm_num
  have key : ∀ tier ∈ rewardTiers,
      jltB (jrem st.points tier.points) tier.points = true := by
    intro tier htier
    have hp := hpos tier htier
    rw [h]
    simp only [jrem]
    rw [if_neg (ne_of_gt hp)]
    simp only [jltB]
    exact decide_eq_true
      ((jsRem_bounds (n : ℚ) tier.points (by positivity) hp).2)
  refine ⟨?_, key⟩
  unfold calculateRewards rewardsBySpec
  apply List.filter_congr
  intro tier htier
  rw [key tier htier, Bool.and_true]

/-- C6 witness: at `points = 150` the two filters agree. -/
theorem C6_rewards_filter_witness :
    calculateRewards ⟨[], some 150, []⟩ = rewardsBySpec ⟨[], some 150, []⟩ :=
  (C6_rewards_filter ⟨[], some 150, []⟩ 150 (by norm_num)).1

/-- Everything already unlocked stays visible after `checkAchievements`
appends the new achievements. -/
lemma hasAchievement_checkAchievements (st : CollectionManager)
    (aid : String) (h : hasAchievement st aid = true) :
    hasAchievement (checkAchievements st) aid = true := by
  have hach : (checkAchievements st).achievements
      = st.achievements ++ newAchievements st := rfl
  unfold hasAchievement at h ⊢
  rw [hach, List.any_append, h, Bool.true_or]

/-- An achievement contained in the unlocked list is reported by
`hasAchievement`. -/
lemma hasAchievement_of_mem (st : CollectionManager) (a : Achievement)
    (h : a ∈ st.achievements) : hasAchievement st a.id = true := by
  unfold hasAchievement
  exact List.any_eq_true.mpr ⟨a, h, by simp⟩

/-- A newly pushed achievement was not previously unlocked. -/
lemma newAchievements_not_has (st : CollectionManager) (a : Achievement)
    (h : a ∈ newAchievements st) : hasAchievement st a.id = false := by
  unfold newAchievements at h
  rcases List.mem_map.mp h with ⟨p, hp, rfl⟩
  have hcond := (List.mem_filter.mp hp).2
  rcases Bool.and_eq_true_iff.mp hcond with ⟨_, h2⟩
  rwa [Bool.not_eq_true'] at h2

/-- If `hasAchievement` is false, the id is absent from the id list. -/
lemma not_mem_ids_of_hasAchievement_false (st : CollectionManager)
    (aid : String) (h : hasAchievement st aid = false) :
    aid ∉ st.achievements.map Achievement.id := by
  intro hmem
  rcases List.mem_map.mp hmem with ⟨b, hb, rfl⟩
  have : hasAchievement st b.id = true := hasAchievement_of_mem st b hb
  rw [h] at this
  cases this

/-- A second run of `checkAchievements` at the same collection state
unlocks nothing: every still-eligible candidate was unlocked by the
first run. -/
lemma newAchievements_after_check (st : CollectionManager) :
    newAchievements (checkAchievements st) = [] := by
  have hc : candidatePairs (checkAchievements st) = candidatePairs st := rfl
  unfold newAchievements
  rw [hc]
  rw [List.map_eq_nil_iff]
  rw [List.filter_eq_nil_iff]
  intro p hp hcond
  rcases Bool.and_eq_true_iff.mp hcond with ⟨hp1, hp2⟩
  rw [Bool.not_eq_true'] at hp2
  by_cases hst : hasAchievement st p.2.id = true
  · rw [hasAchievement_checkAchievements st p.2.id hst] at hp2
    cases hp2
  · have hfalse : hasAchievement st p.2.id = false :=
      Bool.not_eq_true _ ▸ Bool.eq_false_iff.mpr hst
    have hmem : p.2 ∈ newAchievements st := by
      unfold newAchievements
      exact List.mem_map.mpr
        ⟨p, List.mem_filter.mpr ⟨hp, by rw [hp1, hfalse]; rfl⟩, rfl⟩
    have hmem' : p.2 ∈ (checkAchievements st).achievements := by
      have hach : (checkAchievements st).achievements
          = st.achievements ++ newAchievements st := rfl
      rw [hach]
      exact List.mem_append_right _ hmem
    have := hasAchievement_of_mem (checkAchievements st) p.2 hmem'
    rw [this] at hp2
    cases hp2

/-- The ids of one batch of new achievements are pairwise distinct. -/
lemma newAchievements_ids_nodup (st : CollectionManager) :
    ((newAchievements st).map Achievement.id).Nodup := by
  have hids : (candidatePairs st).map (fun p => p.2.id)
      = ["first_duck", "ducks_5", "ducks_10", "ducks_25", "ducks_50",
         "ducks_100", "points_100", "points_500", "points_1000",
         "points_2500", "points_5000", "golden_duck", "royal_duck"] := rfl
  have hsub : List.Sublist ((newAchievements st).map Achievement.id)
      ((candidatePairs st).map (fun p => p.2.id)) := by
    unfold newAchievements
    rw [List.map_map]
    exact (List.filter_sublist _).map _
  refine List.Nodup.sublist hsub ?_
  rw [hids]
  decide

/-- C7: achievement unlocking is idempotent — a candidate whose id is
already unlocked is never pushed again; running `checkAchievements`
twice at the same collection count and points total changes nothing the
second time; and the unlocked id list stays duplicate-free. -/
theorem C7_achievements_idempotent :
    (∀ (st : CollectionManager) (a : Achievement),
      a ∈ newAchievements st → hasAchievement st a.id = false) ∧
    (∀ st : CollectionManager,
      checkAchievements (checkAchievements st) = checkAchievements st) ∧
    (∀ st : CollectionManager,
      (st.achievements.map Achievement.id).Nodup →
      ((checkAchievements st).achievements.map Achievement.id).Nodup) := by
  refine ⟨newAchievements_not_has, ?_, ?_⟩
  · intro st
    show { checkAchievements st with
        achievements := (checkAchievements st).achievements
          ++ newAchievements (checkAchievements st) }
      = checkAchievements st
    rw [newAchievements_after_check, List.append_nil]
  · intro st h
    have hach : (checkAchievements st).achievements
        = st.achievements ++ newAchievements st := rfl
    rw [hach, List.map_append]
    rw [List.nodup_append]
    refine ⟨h, newAchievements_ids_nodup st, ?_⟩
    intro x hx1 hx2
    rcases List.mem_map.mp hx2 with ⟨a, ha, rfl⟩
    have hfalse := newAchievements_not_has st a ha
    exact not_mem_ids_of_hasAchievement_false st a.id hfalse hx1

/-- C7 witness: from a one-golden-duck ledger worth 150 points, the id
list after unlocking is duplicate-free. -/
theorem C7_achievements_idempotent_witness :
    ((checkAchievements
        ⟨[⟨"🌟", "Golden Duck", 50, 3/10, 1, 2, true⟩], some 150, []⟩
      ).achievements.map Achievement.id).Nodup :=
  C7_achievements_idempotent.2.2
    ⟨[⟨"🌟", "Golden Duck", 50, 3/10, 1, 2, true⟩], some 150, []⟩
    (by decide)

/-- C2 counterexample: `MotionSensorManager.handleOrientationChange` is
an orientation update, yet it smooths the heading axis with the plain
blend (no wraparound handling): from smoothed alpha `359`, raw target
`1`, factor `0.8` it produces `287.4`, not a value near `359.4` — the
wraparound behavior the claim ascribes to every orientation update holds
only in the standalone pipeline's `smoothValue`. -/
theorem C2_counterexample :
    (handleOrientationChange ⟨true, 4/5, ⟨359, 0, 0⟩⟩ (some 1) (some 0)
        (some 0)).orientation.alpha = 1437/5 ∧
    smoothValue 359 1 (4/5) true = 1797/5 ∧
    (1437 : ℚ)/5 ≠ 1797/5 ∧ ¬ (|(1437 : ℚ)/5 - 1797/5| ≤ 10) := by
  refine ⟨?_, ?_, by norm_num, ?_⟩
  · simp [handleOrientationChange, msmSmoothValue]
    norm_num
  · unfold smoothValue
    have hcond : (true && decide (|(1:ℚ) - 359| > 180)) = true := by
      rw [Bool.true_and, decide_eq_true_eq,
        abs_of_nonpos (by norm_num : (1:ℚ) - 359 ≤ 0)]
      norm_num
    rw [if_pos hcond, if_neg (by norm_num : ¬ (1:ℚ) > 359)]
    norm_num
  · rw [abs_of_nonpos (by norm_num : (1437 : ℚ)/5 - 1797/5 ≤ 0)]
    norm_num

/-- C2 (amended): in the standalone orientation pipeline's `smoothValue`
with `isAlpha = true` (src/unnamed/part_003), whenever
`|target - current| > 180` the function adds 360 to the smaller value
before blending and renormalizes into the heading range, so the blend
moves along the short angular path: the angular distance from the result
to the target is exactly `factor` times the short angular distance
`360 - |target - current|`.  `MotionSensorManager.handleOrientationChange`
does not share this behavior (see the counterexample). -/
theorem C2_alpha_short_path (c t f : ℚ) (hc0 : 0 ≤ c) (hc1 : c < 360)
    (ht0 : 0 ≤ t) (ht1 : t < 360) (hd : |t - c| > 180)
    (hf0 : 0 ≤ f) (hf1 : f ≤ 1) :
    angDist (smoothValue c t f true) t = f * (360 - |t - c|) := by
  by_cases hgt : t > c
  · have habs : |t - c| = t - c := abs_of_pos (by linarith)
    rw [habs] at hd ⊢
    have hred : smoothValue c t f true =
        (if (c + 360) * f + t * (1 - f) > 360
         then (c + 360) * f + t * (1 - f) - 360
         else if (c + 360) * f + t * (1 - f) < 0
         then (c + 360) * f + t * (1 - f) + 360
         else (c + 360) * f + t * (1 - f)) := by
      unfold smoothValue
      have hcond : (true && decide (|t - c| > (180:ℚ))) = true := by
        rw [Bool.true_and, decide_eq_true_eq, habs]
        exact hd
      rw [if_pos hcond, if_pos hgt]
      simp
    rw [hred]
    have hX0 : 0 < c + 360 - t := by linarith
    have hX180 : c + 360 - t < 180 := by linarith
    have hD0 : 0 ≤ f * (c + 360 - t) := mul_nonneg hf0 (le_of_lt hX0)
    have hDX : f * (c + 360 - t) ≤ c + 360 - t :=
      mul_le_of_le_one_left (le_of_lt hX0) hf1
    have hs : (c + 360) * f + t * (1 - f) = t + f * (c + 360 - t) := by ring
    have hgoal : f * (360 - (t - c)) = f * (c + 360 - t) := by ring
    rw [hgoal, hs]
    split_ifs with h1 h2
    · unfold angDist
      rw [show t + f * (c + 360 - t) - 360 - t
            = -(360 - f * (c + 360 - t)) by ring,
        abs_neg, abs_of_nonneg (by linarith)]
      rw [show (360:ℚ) - (360 - f * (c + 360 - t)) = f * (c + 360 - t) by ring]
      exact min_eq_right (by linarith)
    · linarith
    · unfold angDist
      rw [show t + f * (c + 360 - t) - t = f * (c + 360 - t) by ring,
        abs_of_nonneg hD0]
      exact min_eq_left (by linarith)
  · have hlt : t < c := by
      rcases lt_or_eq_of_le (le_of_not_lt hgt) with h | h
      · exact h
      · rw [h] at hd
        simp at hd
        linarith
    have habs : |t - c| = c - t := by
      rw [abs_of_neg (by linarith : t - c < 0)]
      ring
    rw [habs] at hd ⊢
    have hred : smoothValue c t f true =
        (if c * f + (t + 360) * (1 - f) > 360
         then c * f + (t + 360) * (1 - f) - 360
         else if c * f + (t + 360) * (1 - f) < 0
         then c * f + (t + 360) * (1 - f) + 360
         else c * f + (t + 360) * (1 - f)) := by
      unfold smoothValue
      have hcond : (true && decide (|t - c| > (180:ℚ))) = true := by
        rw [Bool.true_and, decide_eq_true_eq, habs]
        exact hd
      rw [if_pos hcond, if_neg hgt]
      simp
    rw [hred]
    have hX0 : 0 < t + 360 - c := by linarith
    have hX180 : t + 360 - c < 180 := by linarith
    have hD0 : 0 ≤ f * (t + 360 - c) := mul_nonneg hf0 (le_of_lt hX0)
    have hDX : f * (t + 360 - c) ≤ t + 360 - c :=
      mul_le_of_le_one_left (le_of_lt hX0) hf1
    have hs : c * f + (t + 360) * (1 - f)
        = t + 360 - f * (t + 360 - c) := by ring
    have hgoal : f * (360 - (c - t)) = f * (t + 360 - c) := by ring
    rw [hgoal, hs]
    split_ifs with h1 h2
    · unfold angDist
      rw [show t + 360 - f * (t + 360 - c) - 360 - t
            = -(f * (t + 360 - c)) by ring,
        abs_neg, abs_of_nonneg hD0]
      exact min_eq_left (by linarith)
    · linarith
    · unfold angDist
      rw [show t + 360 - f * (t + 360 - c) - t
            = 360 - f * (t + 360 - c) by ring,
        abs_of_nonneg (by linarith)]
      rw [show (360:ℚ) - (360 - f * (t + 360 - c)) = f * (t + 360 - c) by ring]
      exact min_eq_right (by linarith)

/-- C2 witness: at `current = 359`, `target = 1`, `factor = 0.8` the
smoothed heading sits at angular distance `0.8 * 2 = 1.6` from the
target — the short path across the 0/360 boundary (the value is 359.4). -/
theorem C2_alpha_short_path_witness :
    angDist (smoothValue 359 1 (4/5) true) 1
      = (4/5) * (360 - |(1 : ℚ) - 359|) :=
  C2_alpha_short_path 359 1 (4/5) (by norm_num) (by norm_num) (by norm_num)
    (by norm_num)
    (by rw [abs_of_nonpos (by norm_num : (1:ℚ) - 359 ≤ 0)]; norm_num)
    (by norm_num) (by norm_num)
